import Mathlib

/-!
Verification of the duplicate-detection service (`duplicate.service.ts`).

The service drives two job handlers:
  - `handleQueueSearchDuplicates` (scan-all): enumerates eligible assets and
    submits scan-one jobs to the job queue in bounded batches;
  - `handleSearchDuplicates` (scan-one): loads one asset, queries similarity
    search, and runs the private cluster-merge routine `updateDuplicates`.

The embedding below translates the service code directly; the external
collaborators (asset repository lookups, similarity search, the duplicate
store's merge, the asset-field update) are modelled from the spec's interface
descriptions, as noted on each definition.
-/

namespace DuplicateService

/-- Job result statuses used by the two handlers (from `JobStatus` in `enum.ts`). -/
inductive JobStatus where
  | success
  | failed
  | skipped
deriving DecidableEq, Repr

/-- Asset visibility states (from `AssetVisibility` in `enum.ts`); the handler
checks `hidden` and `locked`. -/
inductive AssetVisibility where
  | timeline
  | hidden
  | archive
  | locked
deriving DecidableEq, Repr

/-- The scan-relevant fields of an asset row, as returned by
`assetJobRepository.getForSearchDuplicatesJob` (spec section 3: id, embedding,
type, visibility, stack membership, owner, duplicateId). Ids and media types
are opaque tokens, modelled as naturals; an embedding is an opaque vector. -/
structure AssetRow where
  id : Nat
  ownerId : Nat
  stackId : Option Nat
  visibility : AssetVisibility
  embedding : Option (List Int)
  assetType : Nat
  duplicateId : Option Nat
deriving DecidableEq, Repr

/-- One candidate match returned by `duplicateRepository.search`
(`AssetDuplicateResult` in `search.repository.ts`): the matched asset's id and
its current duplicate-group id, possibly null. -/
structure AssetDuplicateResult where
  assetId : Nat
  duplicateId : Option Nat
deriving DecidableEq, Repr

/-- The argument record of one `duplicateRepository.merge` call. -/
structure MergeRequest where
  targetId : Nat
  assetIds : List Nat
  sourceIds : List Nat
deriving DecidableEq, Repr

/-- The batch threshold used by scan-all (`JOBS_ASSET_PAGINATION_SIZE` in
`constants.ts`). The batching theorems are proved for an arbitrary positive
threshold. -/
def JOBS_ASSET_PAGINATION_SIZE : Nat := 1000

/-- JavaScript `[...new Set(xs)]`: remove duplicates keeping the first
occurrence of each element, in discovery order. -/
def setDedup : List Nat → List Nat
  | [] => []
  | x :: xs => x :: (setDedup xs).filter (fun y => y ≠ x)

/-- The private cluster-merge routine `updateDuplicates` (lines 116-140 of
`duplicate.service.ts`), as a pure function of the scanned asset's id and
current `duplicateId`, the candidate list, and the id that
`cryptoRepository.randomUUID()` would mint.  It returns the single
`duplicateRepository.merge` request issued; the asset-id list of that request
is also the handler's `assetIds` bookkeeping value.

Translation notes: `duplicateIds` is the first-occurrence deduplication of the
non-null candidate group ids; `??` short-circuits, so `duplicateIds.shift()`
runs (removing the head) only when `asset.duplicateId` is null. -/
def updateDuplicates (freshId : Nat) (assetId : Nat) (assetDuplicateId : Option Nat)
    (duplicateAssets : List AssetDuplicateResult) : MergeRequest :=
  let duplicateIds := setDedup (duplicateAssets.filterMap (fun d => d.duplicateId))
  let targetDuplicateId := assetDuplicateId.getD (duplicateIds.head?.getD freshId)
  let sourceIds := if assetDuplicateId.isSome then duplicateIds else duplicateIds.drop 1
  let assetIdsToUpdate :=
    (duplicateAssets.filter (fun d => d.duplicateId ≠ some targetDuplicateId)).map
      (fun d => d.assetId) ++ [assetId]
  ⟨targetDuplicateId, assetIdsToUpdate, sourceIds⟩

/-- Modelled from the spec: `loadForDetection(id) -> Asset | absent`
(the asset repository's `getForSearchDuplicatesJob`, not part of the shown
source). The store is a list of asset rows; lookup finds the row with the
given id. -/
def getForSearchDuplicatesJob (st : List AssetRow) (id : Nat) : Option AssetRow :=
  st.find? (fun a => a.id == id)

/-- The current duplicate-group id of asset `x` in store `st` (null when the
asset is absent or ungrouped). -/
def dupOf (st : List AssetRow) (x : Nat) : Option Nat :=
  (getForSearchDuplicatesJob st x).bind (fun a => a.duplicateId)

/-- Modelled from the spec: `similaritySearch` returns candidate matches "with
their current duplicate-group id (if any)" (spec section 2). Which assets
match is determined by the embeddings and the distance bound, none of which
this pipeline changes, so the matched ids are a fixed parameter `matchIds`;
each candidate's `duplicateId` is read from the current store. -/
def searchResults (st : List AssetRow) (matchIds : List Nat) : List AssetDuplicateResult :=
  matchIds.map (fun cid => ⟨cid, dupOf st cid⟩)

/-- How one merge request updates one asset row: rows listed in `assetIds` and
rows whose group is one of the `sourceIds` are reassigned to the target
group. -/
def mergeUpd (req : MergeRequest) (a : AssetRow) : AssetRow :=
  if a.id ∈ req.assetIds ∨ a.duplicateId ∈ req.sourceIds.map some then
    { a with duplicateId := some req.targetId }
  else a

/-- Modelled from the spec: `mergeGroups(targetGroupId, assetIds, sourceGroupIds)`
(the duplicate store's `merge`, not part of the shown source), "responsible for
atomically reassigning membership and retiring the absorbed groups" (spec
section 4.3 step 5): every listed asset and every member of a source group is
reassigned to the target group. -/
def applyMerge (st : List AssetRow) (req : MergeRequest) : List AssetRow :=
  st.map (mergeUpd req)

/-- Modelled from the spec: `assetRepository.update({ id, duplicateId })` sets
the one asset's `duplicateId` field. -/
def updateAssetDuplicateId (st : List AssetRow) (id : Nat) (v : Option Nat) : List AssetRow :=
  st.map (fun a => if a.id = id then { a with duplicateId := v } else a)

/-- The observable outcome of one scan-one run: the returned job status, the
resulting store, and the calls issued (merge requests to the duplicate store,
`duplicateId`-clearing updates, and the ids stamped by the single batched
`upsertJobStatus` bookkeeping write). -/
structure ScanOutcome where
  status : JobStatus
  db : List AssetRow
  mergeCalls : List MergeRequest
  clearedIds : List Nat
  stampedIds : List Nat
deriving DecidableEq, Repr

/-- The scan-one handler `handleSearchDuplicates` (lines 59-114 of
`duplicate.service.ts`): feature-flag check, asset load, stack / hidden /
locked / missing-embedding guards, similarity search, then either the cluster
merge, or a `duplicateId` clear when no candidates and a group was set, or
nothing; finally the bookkeeping stamp over `assetIds`. -/
def handleSearchDuplicates (enabled : Bool) (matchIds : List Nat) (freshId : Nat)
    (st : List AssetRow) (id : Nat) : ScanOutcome :=
  if !enabled then ⟨.skipped, st, [], [], []⟩
  else
    match getForSearchDuplicatesJob st id with
    | none => ⟨.failed, st, [], [], []⟩
    | some asset =>
      if asset.stackId.isSome then ⟨.skipped, st, [], [], []⟩
      else if asset.visibility = .hidden then ⟨.skipped, st, [], [], []⟩
      else if asset.visibility = .locked then ⟨.skipped, st, [], [], []⟩
      else if asset.embedding.isNone then ⟨.failed, st, [], [], []⟩
      else
        let duplicateAssets := searchResults st matchIds
        if 0 < duplicateAssets.length then
          let req := updateDuplicates freshId asset.id asset.duplicateId duplicateAssets
          ⟨.success, applyMerge st req, [req], [], req.assetIds⟩
        else if asset.duplicateId.isSome then
          ⟨.success, updateAssetDuplicateId st asset.id none, [], [asset.id], [asset.id]⟩
        else
          ⟨.success, st, [], [], [asset.id]⟩

/-- The scan-all accumulation loop (lines 45-53 of `duplicate.service.ts`):
push each enumerated asset id onto `jobs`, flushing a batch to
`jobRepository.queueAll` whenever `jobs.length` reaches the threshold `K`.
Returns the flushed batches and the still-pending `jobs` buffer. -/
def queueLoop (K : Nat) : List Nat → List (List Nat) → List Nat → List (List Nat) × List Nat
  | [], calls, jobs => (calls, jobs)
  | a :: rest, calls, jobs =>
    let jobs2 := jobs ++ [a]
    if K ≤ jobs2.length then queueLoop K rest (calls ++ [jobs2]) []
    else queueLoop K rest calls jobs2

/-- The scan-all handler `handleQueueSearchDuplicates` (lines 33-56 of
`duplicate.service.ts`): skip when the feature is disabled, otherwise run the
accumulation loop over the enumerated asset ids and always issue one final
`queueAll` flush (even when the buffer is empty). Returns the job status and
the list of `queueAll` calls, each a batch of scan-one asset ids. -/
def handleQueueSearchDuplicates (enabled : Bool) (K : Nat) (assetIds : List Nat) :
    JobStatus × List (List Nat) :=
  if !enabled then (.skipped, [])
  else
    let r := queueLoop K assetIds [] []
    (.success, r.1 ++ [r.2])

/-! ### Helper lemmas -/

theorem mem_setDedup {a : Nat} {l : List Nat} : a ∈ setDedup l ↔ a ∈ l := by
  induction l with
  | nil => simp [setDedup]
  | cons x xs ih =>
    simp only [setDedup, List.mem_cons, List.mem_filter, ih, decide_eq_true_eq]
    constructor
    · rintro (rfl | ⟨h, _⟩)
      · exact Or.inl rfl
      · exact Or.inr h
    · rintro (rfl | h)
      · exact Or.inl rfl
      · by_cases hx : a = x
        · exact Or.inl hx
        · exact Or.inr ⟨h, hx⟩

theorem setDedup_nodup (l : List Nat) : (setDedup l).Nodup := by
  induction l with
  | nil => simp [setDedup]
  | cons x xs ih =>
    rw [setDedup, List.nodup_cons]
    refine ⟨fun hx => ?_, ih.filter _⟩
    have := (List.mem_filter.mp hx).2
    simp at this

theorem getJob_eq_some_id {st : List AssetRow} {x : Nat} {b : AssetRow}
    (h : getForSearchDuplicatesJob st x = some b) : b.id = x := by
  have := List.find?_some h
  simpa using this

theorem getJob_map_pres (st : List AssetRow) (f : AssetRow → AssetRow)
    (hf : ∀ a, (f a).id = a.id) (x : Nat) :
    getForSearchDuplicatesJob (st.map f) x = (getForSearchDuplicatesJob st x).map f := by
  unfold getForSearchDuplicatesJob
  have hp : ((fun a : AssetRow => a.id == x) ∘ f) = (fun a : AssetRow => a.id == x) := by
    funext a
    simp [Function.comp, hf]
  rw [List.find?_map, hp]

theorem row_set_dup_eq {a : AssetRow} {v : Option Nat} (h : a.duplicateId = v) :
    { a with duplicateId := v } = a := by
  cases a
  simp_all

theorem map_eq_self_of_fix {l : List AssetRow} {f : AssetRow → AssetRow}
    (h : ∀ a ∈ l, f a = a) : l.map f = l := by
  rw [List.map_congr_left h]
  exact List.map_id l

/-- Unfolding of the three components of `updateDuplicates`. -/
theorem updateDuplicates_targetId (freshId aid : Nat) (adup : Option Nat)
    (cands : List AssetDuplicateResult) :
    (updateDuplicates freshId aid adup cands).targetId =
      adup.getD ((setDedup (cands.filterMap (fun d => d.duplicateId))).head?.getD freshId) := rfl

theorem updateDuplicates_sourceIds (freshId aid : Nat) (adup : Option Nat)
    (cands : List AssetDuplicateResult) :
    (updateDuplicates freshId aid adup cands).sourceIds =
      if adup.isSome then setDedup (cands.filterMap (fun d => d.duplicateId))
      else (setDedup (cands.filterMap (fun d => d.duplicateId))).drop 1 := rfl

theorem updateDuplicates_assetIds (freshId aid : Nat) (adup : Option Nat)
    (cands : List AssetDuplicateResult) :
    (updateDuplicates freshId aid adup cands).assetIds =
      (cands.filter (fun d =>
        d.duplicateId ≠ some (updateDuplicates freshId aid adup cands).targetId)).map
          (fun d => d.assetId) ++ [aid] := rfl

/-- The scan-one handler in the non-empty-candidates branch reduces to the
merge produced by `updateDuplicates`. -/
theorem scanOne_merge_branch {matchIds : List Nat} {freshId : Nat}
    {st : List AssetRow} {id : Nat} {asset : AssetRow}
    (hfound : getForSearchDuplicatesJob st id = some asset)
    (hstack : asset.stackId = none)
    (hh : asset.visibility ≠ AssetVisibility.hidden)
    (hl : asset.visibility ≠ AssetVisibility.locked)
    (hemb : asset.embedding ≠ none)
    (hne : matchIds ≠ []) :
    handleSearchDuplicates true matchIds freshId st id =
      ⟨.success,
       applyMerge st
         (updateDuplicates freshId asset.id asset.duplicateId (searchResults st matchIds)),
       [updateDuplicates freshId asset.id asset.duplicateId (searchResults st matchIds)],
       [],
       (updateDuplicates freshId asset.id asset.duplicateId (searchResults st matchIds)).assetIds⟩ := by
  have hlen : 0 < (searchResults st matchIds).length := by
    simpa [searchResults] using List.length_pos.mpr hne
  simp [handleSearchDuplicates, hfound, hstack, hh, hl, hemb, hlen, Option.isNone_iff_eq_none]

/-! ### Claims C7, C8, C9: guard behaviour of scan-one -/

/-- C7: every asset that exists, is not stacked, not hidden, and not locked
but has no embedding makes scan-one return the failed status with no duplicate
store mutation at all (no merge, no `duplicateId` clear, and the store is left
unchanged). -/
theorem scanOne_missing_embedding_fails (matchIds : List Nat) (freshId : Nat)
    (st : List AssetRow) (id : Nat) (asset : AssetRow)
    (hfound : getForSearchDuplicatesJob st id = some asset)
    (hstack : asset.stackId = none)
    (hh : asset.visibility ≠ AssetVisibility.hidden)
    (hl : asset.visibility ≠ AssetVisibility.locked)
    (hemb : asset.embedding = none) :
    handleSearchDuplicates true matchIds freshId st id = ⟨.failed, st, [], [], []⟩ := by
  simp [handleSearchDuplicates, hfound, hstack, hh, hl, hemb]

/-- Witness for C7 on a concrete one-asset store. -/
theorem scanOne_missing_embedding_fails_witness :
    handleSearchDuplicates true [2] 99 [⟨1, 10, none, .timeline, none, 0, none⟩] 1 =
      ⟨.failed, [⟨1, 10, none, .timeline, none, 0, none⟩], [], [], []⟩ :=
  scanOne_missing_embedding_fails [2] 99 [⟨1, 10, none, .timeline, none, 0, none⟩] 1
    ⟨1, 10, none, .timeline, none, 0, none⟩ (by decide) rfl (by decide) (by decide) rfl

/-- C8: every asset that is part of a stack, or hidden, or locked makes
scan-one (feature enabled) return the skipped status with no duplicate store
mutation, for every possible candidate list the similarity search could
return. -/
theorem scanOne_excluded_skips (matchIds : List Nat) (freshId : Nat)
    (st : List AssetRow) (id : Nat) (asset : AssetRow)
    (hfound : getForSearchDuplicatesJob st id = some asset)
    (h : asset.stackId.isSome ∨ asset.visibility = AssetVisibility.hidden ∨
      asset.visibility = AssetVisibility.locked) :
    handleSearchDuplicates true matchIds freshId st id = ⟨.skipped, st, [], [], []⟩ := by
  rcases h with hs | hv | hv
  · simp [handleSearchDuplicates, hfound, hs]
  · by_cases hs : asset.stackId.isSome <;> simp [handleSearchDuplicates, hfound, hs, hv]
  · by_cases hs : asset.stackId.isSome <;>
      by_cases hh : asset.visibility = AssetVisibility.hidden <;>
      simp_all [handleSearchDuplicates, hfound]

/-- Witness for C8 on a concrete stacked asset with a would-be candidate. -/
theorem scanOne_excluded_skips_witness :
    handleSearchDuplicates true [2] 99 [⟨1, 10, some 3, .timeline, some [0], 0, none⟩] 1 =
      ⟨.skipped, [⟨1, 10, some 3, .timeline, some [0], 0, none⟩], [], [], []⟩ :=
  scanOne_excluded_skips [2] 99 [⟨1, 10, some 3, .timeline, some [0], 0, none⟩] 1
    ⟨1, 10, some 3, .timeline, some [0], 0, none⟩ (by decide) (Or.inl (by decide))

/-- C9: the exclusion checks run before the missing-embedding check, so an
asset that is stacked, hidden, or locked and also lacks an embedding yields
the skipped status, never the failed one. -/
theorem scanOne_exclusion_precedes_embedding (matchIds : List Nat) (freshId : Nat)
    (st : List AssetRow) (id : Nat) (asset : AssetRow)
    (hfound : getForSearchDuplicatesJob st id = some asset)
    (hemb : asset.embedding = none)
    (h : asset.stackId.isSome ∨ asset.visibility = AssetVisibility.hidden ∨
      asset.visibility = AssetVisibility.locked) :
    (handleSearchDuplicates true matchIds freshId st id).status = .skipped ∧
    (handleSearchDuplicates true matchIds freshId st id).status ≠ .failed := by
  have hout : handleSearchDuplicates true matchIds freshId st id = ⟨.skipped, st, [], [], []⟩ := by
    rcases h with hs | hv | hv
    · simp [handleSearchDuplicates, hfound, hs]
    · by_cases hs : asset.stackId.isSome <;> simp [handleSearchDuplicates, hfound, hs, hv]
    · by_cases hs : asset.stackId.isSome <;>
        by_cases hh : asset.visibility = AssetVisibility.hidden <;>
        simp_all [handleSearchDuplicates, hfound]
  rw [hout]
  exact ⟨rfl, fun h => JobStatus.noConfusion h⟩

/-- Witness for C9: a hidden asset without embedding is skipped, not failed. -/
theorem scanOne_exclusion_precedes_embedding_witness :
    (handleSearchDuplicates true [2] 99 [⟨1, 10, none, .hidden, none, 0, none⟩] 1).status =
      .skipped ∧
    (handleSearchDuplicates true [2] 99 [⟨1, 10, none, .hidden, none, 0, none⟩] 1).status ≠
      .failed :=
  scanOne_exclusion_precedes_embedding [2] 99 [⟨1, 10, none, .hidden, none, 0, none⟩] 1
    ⟨1, 10, none, .hidden, none, 0, none⟩ (by decide) rfl (Or.inr (Or.inl rfl))

/-! ### Claims C6 and C10: the zero-candidate paths -/

/-- C6: when the similarity search returns zero candidates and the scanned
asset held `duplicateId = G`, the run succeeds, issues no merge, and its only
group change is clearing that one asset's `duplicateId`: lookups of every
other asset id are completely unchanged. -/
theorem scanOne_no_candidate_detach (freshId : Nat) (st : List AssetRow) (id : Nat)
    (asset : AssetRow) (G : Nat)
    (hfound : getForSearchDuplicatesJob st id = some asset)
    (hstack : asset.stackId = none)
    (hh : asset.visibility ≠ AssetVisibility.hidden)
    (hl : asset.visibility ≠ AssetVisibility.locked)
    (hemb : asset.embedding ≠ none)
    (hdup : asset.duplicateId = some G) :
    handleSearchDuplicates true [] freshId st id =
      ⟨.success, updateAssetDuplicateId st id none, [], [id], [id]⟩ ∧
    dupOf (updateAssetDuplicateId st id none) id = none ∧
    ∀ x, x ≠ id → getForSearchDuplicatesJob (updateAssetDuplicateId st id none) x =
      getForSearchDuplicatesJob st x := by
  have hid : asset.id = id := getJob_eq_some_id hfound
  have hfpres : ∀ a : AssetRow,
      ((fun a : AssetRow => if a.id = id then { a with duplicateId := none } else a) a).id =
        a.id := by
    intro a
    by_cases hx : a.id = id <;> simp [hx]
  have hmap : ∀ x, getForSearchDuplicatesJob (updateAssetDuplicateId st id none) x =
      (getForSearchDuplicatesJob st x).map
        (fun a => if a.id = id then { a with duplicateId := none } else a) := by
    intro x
    exact getJob_map_pres st _ hfpres x
  refine ⟨?_, ?_, ?_⟩
  · have : handleSearchDuplicates true [] freshId st id =
        ⟨.success, updateAssetDuplicateId st asset.id none, [], [asset.id], [asset.id]⟩ := by
      simp [handleSearchDuplicates, hfound, hstack, hh, hl, hemb, hdup, searchResults,
        Option.isNone_iff_eq_none]
    rw [hid] at this
    exact this
  · rw [dupOf, hmap id, hfound]
    simp [hid]
  · intro x hx
    rw [hmap x]
    cases hb : getForSearchDuplicatesJob st x with
    | none => rfl
    | some b =>
      have hbid : b.id = x := getJob_eq_some_id hb
      simp [hbid, hx]

/-- Witness for C6 on a two-member group: asset 1 is detached, asset 2 (same
group 5) is untouched. -/
theorem scanOne_no_candidate_detach_witness :
    handleSearchDuplicates true [] 99
        [⟨1, 10, none, .timeline, some [0], 0, some 5⟩,
         ⟨2, 10, none, .timeline, some [0], 0, some 5⟩] 1 =
      ⟨.success,
       updateAssetDuplicateId
         [⟨1, 10, none, .timeline, some [0], 0, some 5⟩,
          ⟨2, 10, none, .timeline, some [0], 0, some 5⟩] 1 none, [], [1], [1]⟩ ∧
    dupOf (updateAssetDuplicateId
      [⟨1, 10, none, .timeline, some [0], 0, some 5⟩,
       ⟨2, 10, none, .timeline, some [0], 0, some 5⟩] 1 none) 1 = none ∧
    getForSearchDuplicatesJob (updateAssetDuplicateId
      [⟨1, 10, none, .timeline, some [0], 0, some 5⟩,
       ⟨2, 10, none, .timeline, some [0], 0, some 5⟩] 1 none) 2 =
      getForSearchDuplicatesJob
        [⟨1, 10, none, .timeline, some [0], 0, some 5⟩,
         ⟨2, 10, none, .timeline, some [0], 0, some 5⟩] 2 := by
  have h := scanOne_no_candidate_detach 99
    [⟨1, 10, none, .timeline, some [0], 0, some 5⟩,
     ⟨2, 10, none, .timeline, some [0], 0, some 5⟩] 1
    ⟨1, 10, none, .timeline, some [0], 0, some 5⟩ 5 (by decide) rfl (by decide) (by decide)
    (by decide) rfl
  exact ⟨h.1, h.2.1, h.2.2 2 (by decide)⟩

/-- C10: when the similarity search returns zero candidates and the scanned
asset has no `duplicateId`, the run succeeds and performs no store mutation
and no asset-field update; the only write is the bookkeeping stamp over
exactly the scanned asset's id. -/
theorem scanOne_no_candidate_no_group (freshId : Nat) (st : List AssetRow) (id : Nat)
    (asset : AssetRow)
    (hfound : getForSearchDuplicatesJob st id = some asset)
    (hstack : asset.stackId = none)
    (hh : asset.visibility ≠ AssetVisibility.hidden)
    (hl : asset.visibility ≠ AssetVisibility.locked)
    (hemb : asset.embedding ≠ none)
    (hdup : asset.duplicateId = none) :
    handleSearchDuplicates true [] freshId st id = ⟨.success, st, [], [], [id]⟩ := by
  have hid : asset.id = id := getJob_eq_some_id hfound
  have : handleSearchDuplicates true [] freshId st id = ⟨.success, st, [], [], [asset.id]⟩ := by
    simp [handleSearchDuplicates, hfound, hstack, hh, hl, hemb, hdup, searchResults,
      Option.isNone_iff_eq_none]
  rw [hid] at this
  exact this

/-- Witness for C10 on a concrete ungrouped asset. -/
theorem scanOne_no_candidate_no_group_witness :
    handleSearchDuplicates true [] 99 [⟨1, 10, none, .timeline, some [0], 0, none⟩] 1 =
      ⟨.success, [⟨1, 10, none, .timeline, some [0], 0, none⟩], [], [], [1]⟩ :=
  scanOne_no_candidate_no_group 99 [⟨1, 10, none, .timeline, some [0], 0, none⟩] 1
    ⟨1, 10, none, .timeline, some [0], 0, none⟩ (by decide) rfl (by decide) (by decide)
    (by decide) rfl

/-! ### Claims C1, C2, C4: the cluster merge call -/

/-- C1: in every scan-one run with a non-empty candidate list, exactly one
merge is issued, and its target group id follows the precedence: the scanned
asset's own `duplicateId` when set (regardless of candidate group ids);
otherwise the first distinct non-null candidate group id in discovery order
when one exists; otherwise the freshly generated id. -/
theorem scanOne_target_precedence (matchIds : List Nat) (freshId : Nat)
    (st : List AssetRow) (id : Nat) (asset : AssetRow)
    (hfound : getForSearchDuplicatesJob st id = some asset)
    (hstack : asset.stackId = none)
    (hh : asset.visibility ≠ AssetVisibility.hidden)
    (hl : asset.visibility ≠ AssetVisibility.locked)
    (hemb : asset.embedding ≠ none)
    (hne : matchIds ≠ []) :
    (handleSearchDuplicates true matchIds freshId st id).mergeCalls =
      [updateDuplicates freshId asset.id asset.duplicateId (searchResults st matchIds)] ∧
    (∀ G, asset.duplicateId = some G →
      (updateDuplicates freshId asset.id asset.duplicateId
        (searchResults st matchIds)).targetId = G) ∧
    (asset.duplicateId = none → ∀ g rest,
      setDedup ((searchResults st matchIds).filterMap (fun c => c.duplicateId)) = g :: rest →
      (updateDuplicates freshId asset.id asset.duplicateId
        (searchResults st matchIds)).targetId = g) ∧
    (asset.duplicateId = none →
      setDedup ((searchResults st matchIds).filterMap (fun c => c.duplicateId)) = [] →
      (updateDuplicates freshId asset.id asset.duplicateId
        (searchResults st matchIds)).targetId = freshId) := by
  refine ⟨?_, ?_, ?_, ?_⟩
  · rw [scanOne_merge_branch hfound hstack hh hl hemb hne]
  · intro G hG
    rw [updateDuplicates_targetId, hG]
    rfl
  · intro hG g rest hsd
    rw [updateDuplicates_targetId, hG, hsd]
    rfl
  · intro hG hsd
    rw [updateDuplicates_targetId, hG, hsd]
    rfl

/-- Witness for C1: the scanned asset is already in group 5; the one candidate
references group 7; the merge target is still 5. -/
theorem scanOne_target_precedence_witness :
    (handleSearchDuplicates true [2] 99
        [⟨1, 10, none, .timeline, some [0], 0, some 5⟩,
         ⟨2, 10, none, .timeline, some [0], 0, some 7⟩] 1).mergeCalls =
      [updateDuplicates 99 1 (some 5)
        (searchResults
          [⟨1, 10, none, .timeline, some [0], 0, some 5⟩,
           ⟨2, 10, none, .timeline, some [0], 0, some 7⟩] [2])] ∧
    (updateDuplicates 99 1 (some 5)
      (searchResults
        [⟨1, 10, none, .timeline, some [0], 0, some 5⟩,
         ⟨2, 10, none, .timeline, some [0], 0, some 7⟩] [2])).targetId = 5 := by
  have h := scanOne_target_precedence [2] 99
    [⟨1, 10, none, .timeline, some [0], 0, some 5⟩,
     ⟨2, 10, none, .timeline, some [0], 0, some 7⟩] 1
    ⟨1, 10, none, .timeline, some [0], 0, some 5⟩ (by decide) rfl (by decide) (by decide)
    (by decide) (by decide)
  exact ⟨h.1, h.2.1 5 rfl⟩

/-- C2 counterexample: asset 1 is in group 5 and the single candidate (asset 2)
references the same group 5; the issued merge has target 5 and source-group
list `[5]`, so the source list does contain the target, contradicting the
claim. -/
theorem scanOne_source_groups_cex :
    (handleSearchDuplicates true [2] 99
        [⟨1, 10, none, .timeline, some [0], 0, some 5⟩,
         ⟨2, 10, none, .timeline, some [0], 0, some 5⟩] 1).mergeCalls =
      [⟨5, [1], [5]⟩] ∧
    MergeRequest.targetId ⟨5, [1], [5]⟩ ∈ MergeRequest.sourceIds ⟨5, [1], [5]⟩ := by decide

/-- C2 amended: when the scanned asset has no `duplicateId`, the source-group
list is exactly the distinct non-null candidate group ids other than the
chosen target (and never contains the target); but when the scanned asset's
own `duplicateId` is the target, the source-group list is all distinct
non-null candidate group ids, so it contains the target exactly when some
candidate references the scanned asset's own group. -/
theorem scanOne_source_groups (matchIds : List Nat) (freshId : Nat)
    (st : List AssetRow) (id : Nat) (asset : AssetRow)
    (hfound : getForSearchDuplicatesJob st id = some asset)
    (hstack : asset.stackId = none)
    (hh : asset.visibility ≠ AssetVisibility.hidden)
    (hl : asset.visibility ≠ AssetVisibility.locked)
    (hemb : asset.embedding ≠ none)
    (hne : matchIds ≠ []) :
    (handleSearchDuplicates true matchIds freshId st id).mergeCalls =
      [updateDuplicates freshId asset.id asset.duplicateId (searchResults st matchIds)] ∧
    (asset.duplicateId = none →
      ((updateDuplicates freshId asset.id asset.duplicateId
          (searchResults st matchIds)).targetId ∉
        (updateDuplicates freshId asset.id asset.duplicateId
          (searchResults st matchIds)).sourceIds ∧
       ∀ g, g ∈ (updateDuplicates freshId asset.id asset.duplicateId
          (searchResults st matchIds)).sourceIds ↔
         (g ∈ (searchResults st matchIds).filterMap (fun c => c.duplicateId) ∧
          g ≠ (updateDuplicates freshId asset.id asset.duplicateId
            (searchResults st matchIds)).targetId))) ∧
    (∀ G, asset.duplicateId = some G →
      (updateDuplicates freshId asset.id asset.duplicateId
        (searchResults st matchIds)).sourceIds =
        setDedup ((searchResults st matchIds).filterMap (fun c => c.duplicateId))) := by
  refine ⟨?_, ?_, ?_⟩
  · rw [scanOne_merge_branch hfound hstack hh hl hemb hne]
  · intro hG
    rw [updateDuplicates_sourceIds, updateDuplicates_targetId, hG]
    simp only [Option.isSome_none, Bool.false_eq_true, if_false, Option.getD_none]
    cases hsd : setDedup ((searchResults st matchIds).filterMap (fun c => c.duplicateId)) with
    | nil =>
      constructor
      · simp
      · intro g
        simp only [List.drop_nil, List.not_mem_nil, false_iff, not_and]
        intro hg
        have : g ∈ setDedup ((searchResults st matchIds).filterMap (fun c => c.duplicateId)) :=
          mem_setDedup.mpr hg
        rw [hsd] at this
        exact absurd this (List.not_mem_nil g)
    | cons t rest =>
      have hnd := setDedup_nodup ((searchResults st matchIds).filterMap (fun c => c.duplicateId))
      rw [hsd, List.nodup_cons] at hnd
      simp only [List.head?, Option.getD_some, List.drop_one, List.tail_cons]
      constructor
      · exact hnd.1
      · intro g
        constructor
        · intro hg
          have hmem : g ∈ setDedup ((searchResults st matchIds).filterMap
              (fun c => c.duplicateId)) := by
            rw [hsd]
            exact List.mem_cons_of_mem t hg
          refine ⟨mem_setDedup.mp hmem, fun hgt => ?_⟩
          rw [hgt] at hg
          exact hnd.1 hg
        · rintro ⟨hg, hgt⟩
          have : g ∈ setDedup ((searchResults st matchIds).filterMap (fun c => c.duplicateId)) :=
            mem_setDedup.mpr hg
          rw [hsd, List.mem_cons] at this
          rcases this with h1 | h1
          · exact absurd h1 hgt
          · exact h1
  · intro G hG
    rw [updateDuplicates_sourceIds, hG]
    rfl

/-- Witness for the amended C2, in the ungrouped-asset case: the two
candidates reference groups 7 then 8; the target is 7 and the source list is
exactly `[8]`, which omits the target. -/
theorem scanOne_source_groups_witness :
    (handleSearchDuplicates true [2, 3] 99
        [⟨1, 10, none, .timeline, some [0], 0, none⟩,
         ⟨2, 10, none, .timeline, some [0], 0, some 7⟩,
         ⟨3, 10, none, .timeline, some [0], 0, some 8⟩] 1).mergeCalls =
      [updateDuplicates 99 1 none
        (searchResults
          [⟨1, 10, none, .timeline, some [0], 0, none⟩,
           ⟨2, 10, none, .timeline, some [0], 0, some 7⟩,
           ⟨3, 10, none, .timeline, some [0], 0, some 8⟩] [2, 3])] ∧
    (updateDuplicates 99 1 none
      (searchResults
        [⟨1, 10, none, .timeline, some [0], 0, none⟩,
         ⟨2, 10, none, .timeline, some [0], 0, some 7⟩,
         ⟨3, 10, none, .timeline, some [0], 0, some 8⟩] [2, 3])).targetId ∉
      (updateDuplicates 99 1 none
        (searchResults
          [⟨1, 10, none, .timeline, some [0], 0, none⟩,
           ⟨2, 10, none, .timeline, some [0], 0, some 7⟩,
           ⟨3, 10, none, .timeline, some [0], 0, some 8⟩] [2, 3])).sourceIds := by
  have h := scanOne_source_groups [2, 3] 99
    [⟨1, 10, none, .timeline, some [0], 0, none⟩,
     ⟨2, 10, none, .timeline, some [0], 0, some 7⟩,
     ⟨3, 10, none, .timeline, some [0], 0, some 8⟩] 1
    ⟨1, 10, none, .timeline, some [0], 0, none⟩ (by decide) rfl (by decide) (by decide)
    (by decide) (by decide)
  exact ⟨h.1, (h.2.1 rfl).1⟩

/-- C4: in every scan-one run with a non-empty candidate list, the asset ids
passed to the merge for reassignment are exactly the candidate assets whose
current group id differs from the chosen target, plus the scanned asset's own
id, which is always included. -/
theorem scanOne_reassign_set (matchIds : List Nat) (freshId : Nat)
    (st : List AssetRow) (id : Nat) (asset : AssetRow)
    (hfound : getForSearchDuplicatesJob st id = some asset)
    (hstack : asset.stackId = none)
    (hh : asset.visibility ≠ AssetVisibility.hidden)
    (hl : asset.visibility ≠ AssetVisibility.locked)
    (hemb : asset.embedding ≠ none)
    (hne : matchIds ≠ []) :
    (handleSearchDuplicates true matchIds freshId st id).mergeCalls =
      [updateDuplicates freshId asset.id asset.duplicateId (searchResults st matchIds)] ∧
    asset.id ∈ (updateDuplicates freshId asset.id asset.duplicateId
      (searchResults st matchIds)).assetIds ∧
    (∀ x, x ∈ (updateDuplicates freshId asset.id asset.duplicateId
        (searchResults st matchIds)).assetIds ↔
      (x = asset.id ∨ ∃ c ∈ searchResults st matchIds, c.assetId = x ∧
        c.duplicateId ≠ some (updateDuplicates freshId asset.id asset.duplicateId
          (searchResults st matchIds)).targetId)) := by
  refine ⟨?_, ?_, ?_⟩
  · rw [scanOne_merge_branch hfound hstack hh hl hemb hne]
  · rw [updateDuplicates_assetIds]
    exact List.mem_append.mpr (Or.inr (List.mem_singleton.mpr rfl))
  · intro x
    rw [updateDuplicates_assetIds]
    simp only [List.mem_append, List.mem_singleton, List.mem_map, List.mem_filter,
      decide_eq_true_eq]
    constructor
    · rintro (⟨c, ⟨hc, hct⟩, rfl⟩ | rfl)
      · exact Or.inr ⟨c, hc, rfl, hct⟩
      · exact Or.inl rfl
    · rintro (rfl | ⟨c, hc, rfl, hct⟩)
      · exact Or.inr rfl
      · exact Or.inl ⟨c, ⟨hc, hct⟩, rfl⟩

/-- Witness for C4: candidate 2 already sits in the target group 5 and is not
reassigned; candidate 3 (group 8) and the scanned asset 1 are. -/
theorem scanOne_reassign_set_witness :
    (handleSearchDuplicates true [2, 3] 99
        [⟨1, 10, none, .timeline, some [0], 0, some 5⟩,
         ⟨2, 10, none, .timeline, some [0], 0, some 5⟩,
         ⟨3, 10, none, .timeline, some [0], 0, some 8⟩] 1).mergeCalls =
      [updateDuplicates 99 1 (some 5)
        (searchResults
          [⟨1, 10, none, .timeline, some [0], 0, some 5⟩,
           ⟨2, 10, none, .timeline, some [0], 0, some 5⟩,
           ⟨3, 10, none, .timeline, some [0], 0, some 8⟩] [2, 3])] ∧
    (1 : Nat) ∈ (updateDuplicates 99 1 (some 5)
      (searchResults
        [⟨1, 10, none, .timeline, some [0], 0, some 5⟩,
         ⟨2, 10, none, .timeline, some [0], 0, some 5⟩,
         ⟨3, 10, none, .timeline, some [0], 0, some 8⟩] [2, 3])).assetIds := by
  have h := scanOne_reassign_set [2, 3] 99
    [⟨1, 10, none, .timeline, some [0], 0, some 5⟩,
     ⟨2, 10, none, .timeline, some [0], 0, some 5⟩,
     ⟨3, 10, none, .timeline, some [0], 0, some 8⟩] 1
    ⟨1, 10, none, .timeline, some [0], 0, some 5⟩ (by decide) rfl (by decide) (by decide)
    (by decide) (by decide)
  exact ⟨h.1, h.2.1⟩

/-! ### Claim C5: scan-all batching -/

theorem queueLoop_flatten (K : Nat) (rest : List Nat) : ∀ calls jobs,
    (queueLoop K rest calls jobs).1.flatten ++ (queueLoop K rest calls jobs).2 =
      calls.flatten ++ jobs ++ rest := by
  induction rest with
  | nil =>
    intro calls jobs
    simp [queueLoop]
  | cons a rest ih =>
    intro calls jobs
    simp only [queueLoop]
    by_cases h : K ≤ (jobs ++ [a]).length
    · rw [if_pos h, ih]
      simp
    · rw [if_neg h, ih]
      simp

theorem queueLoop_count (K : Nat) (rest : List Nat) : ∀ calls jobs, jobs.length < K →
    (queueLoop K rest calls jobs).1.length = calls.length + (jobs.length + rest.length) / K ∧
    (queueLoop K rest calls jobs).2.length = (jobs.length + rest.length) % K := by
  induction rest with
  | nil =>
    intro calls jobs h
    simp [queueLoop, Nat.div_eq_of_lt h, Nat.mod_eq_of_lt h]
  | cons a rest ih =>
    intro calls jobs h
    have h0 : 0 < K := Nat.lt_of_le_of_lt (Nat.zero_le _) h
    simp only [queueLoop]
    by_cases hK : K ≤ (jobs ++ [a]).length
    · rw [if_pos hK]
      have hlen : (jobs ++ [a]).length = jobs.length + 1 := by simp
      have hKeq : jobs.length + 1 = K := by
        rw [hlen] at hK
        omega
      obtain ⟨ih1, ih2⟩ := ih (calls ++ [jobs ++ [a]]) [] h0
      simp only [List.length_nil, Nat.zero_add, List.length_append,
        List.length_cons] at ih1 ih2
      have harg : jobs.length + (a :: rest).length = rest.length + K := by
        simp only [List.length_cons]
        omega
      constructor
      · rw [ih1, harg, Nat.add_div_right _ h0]
        omega
      · rw [ih2, harg, Nat.add_mod_right]
    · rw [if_neg hK]
      have hlt : (jobs ++ [a]).length < K := Nat.lt_of_not_le hK
      obtain ⟨ih1, ih2⟩ := ih calls (jobs ++ [a]) hlt
      have harg : (jobs ++ [a]).length + rest.length = jobs.length + (a :: rest).length := by
        simp only [List.length_append, List.length_cons, List.length_nil]
        omega
      rw [ih1, ih2, harg]
      exact ⟨rfl, rfl⟩

theorem queueLoop_batch_sizes (K : Nat) (rest : List Nat) : ∀ calls jobs,
    (∀ b ∈ calls, b.length = K) → jobs.length < K →
    ∀ b ∈ (queueLoop K rest calls jobs).1, b.length = K := by
  induction rest with
  | nil =>
    intro calls jobs hc _ b hb
    exact hc b hb
  | cons a rest ih =>
    intro calls jobs hc h
    have h0 : 0 < K := Nat.lt_of_le_of_lt (Nat.zero_le _) h
    simp only [queueLoop]
    by_cases hK : K ≤ (jobs ++ [a]).length
    · rw [if_pos hK]
      refine ih (calls ++ [jobs ++ [a]]) [] ?_ h0
      intro b hb
      rcases List.mem_append.mp hb with hb | hb
      · exact hc b hb
      · rw [List.mem_singleton.mp hb]
        have : (jobs ++ [a]).length = jobs.length + 1 := by simp
        rw [this]
        omega
    · rw [if_neg hK]
      exact ih calls (jobs ++ [a]) hc (Nat.lt_of_not_le hK)

/-- Ceiling division, written out: for positive `K`,
`⌈N/K⌉ = N/K + (0 or 1 according to whether K divides N) = (N + K - 1)/K`. -/
theorem ceil_div_split (N K : Nat) (hK : 1 ≤ K) :
    N / K + (if N % K = 0 then 0 else 1) = (N + K - 1) / K := by
  have h0 : 0 < K := hK
  have hmod := Nat.div_add_mod N K
  by_cases hr : N % K = 0
  · rw [if_pos hr]
    have harg : N + K - 1 = K * (N / K) + (K - 1) := by omega
    have hlt : K - 1 < K := by omega
    rw [harg, Nat.mul_add_div h0, Nat.div_eq_of_lt hlt]
  · rw [if_neg hr]
    have hrlt : N % K < K := Nat.mod_lt _ h0
    have h1 : 1 ≤ N % K := Nat.one_le_iff_ne_zero.mpr hr
    have harg : N + K - 1 = K * (N / K + 1) + (N % K - 1) := by
      calc N + K - 1 = K * (N / K) + N % K + K - 1 := by omega
        _ = K * (N / K + 1) + (N % K - 1) := by
            rw [Nat.mul_add, Nat.mul_one]
            omega
    have hlt : N % K - 1 < K := by omega
    rw [harg, Nat.mul_add_div h0, Nat.div_eq_of_lt hlt]

/-- C5 counterexample: one eligible asset and batch threshold 1. The in-loop
flush submits the only batch, and the unconditional post-loop flush submits a
second, empty batch: 2 submission calls are made, not ⌈1/1⌉ = 1. -/
theorem scanAll_batching_cex :
    (handleQueueSearchDuplicates true 1 [7]).2 = [[7], []] ∧
    (handleQueueSearchDuplicates true 1 [7]).2.length ≠ (1 + 1 - 1) / 1 := by decide

/-- C5 amended: for every positive batch threshold `K` and enumeration of `N`
eligible assets, scan-all (feature enabled) makes exactly `⌊N/K⌋ + 1`
submission calls, of which exactly `⌈N/K⌉` carry a non-empty batch (the one
extra, empty call occurs exactly when `K` divides `N`); the concatenation of
all submitted batches is exactly the enumerated id sequence, each id once. -/
theorem scanAll_batching (K : Nat) (hK : 1 ≤ K) (assetIds : List Nat) :
    (handleQueueSearchDuplicates true K assetIds).2.length = assetIds.length / K + 1 ∧
    (handleQueueSearchDuplicates true K assetIds).2.flatten = assetIds ∧
    ((handleQueueSearchDuplicates true K assetIds).2.filter
      (fun b => !b.isEmpty)).length = (assetIds.length + K - 1) / K := by
  have h0 : 0 < K := hK
  have hrun : (handleQueueSearchDuplicates true K assetIds).2 =
      (queueLoop K assetIds [] []).1 ++ [(queueLoop K assetIds [] []).2] := by
    simp [handleQueueSearchDuplicates]
  obtain ⟨hc1, hc2⟩ := queueLoop_count K assetIds [] [] h0
  simp only [List.length_nil, Nat.zero_add] at hc1 hc2
  refine ⟨?_, ?_, ?_⟩
  · rw [hrun, List.length_append, hc1]
    simp
  · rw [hrun, List.flatten_append]
    have := queueLoop_flatten K assetIds [] []
    simpa using this
  · rw [hrun, List.filter_append]
    have hfull : ∀ b ∈ (queueLoop K assetIds [] []).1, b.length = K := by
      refine queueLoop_batch_sizes K assetIds [] [] ?_ (by simpa using h0)
      intro b hb
      exact absurd hb (List.not_mem_nil b)
    have hkeep : ((queueLoop K assetIds [] []).1.filter (fun b => !b.isEmpty)) =
        (queueLoop K assetIds [] []).1 := by
      rw [List.filter_eq_self]
      intro b hb
      have hlb := hfull b hb
      have : b ≠ [] := by
        intro hnil
        rw [hnil] at hlb
        simp at hlb
        omega
      simpa [List.isEmpty_iff] using this
    rw [hkeep, List.length_append, hc1]
    by_cases hr : assetIds.length % K = 0
    · have hjempty : (queueLoop K assetIds [] []).2 = [] := by
        have := hc2
        rw [hr] at this
        exact List.length_eq_zero.mp this
      rw [hjempty]
      rw [← ceil_div_split assetIds.length K hK, if_pos hr]
      simp
    · have hjne : (queueLoop K assetIds [] []).2 ≠ [] := by
        intro hnil
        rw [hnil] at hc2
        simp at hc2
        exact hr hc2.symm
      have : ([(queueLoop K assetIds [] []).2].filter (fun b => !b.isEmpty)) =
          [(queueLoop K assetIds [] []).2] := by
        rw [List.filter_eq_self]
        intro b hb
        rw [List.mem_singleton.mp hb]
        simpa [List.isEmpty_iff] using hjne
      rw [this, ← ceil_div_split assetIds.length K hK, if_neg hr]
      simp

/-- Witness for the amended C5: 3 assets, threshold 2 — two submission calls
(`3/2 + 1 = 2`), both non-empty (`⌈3/2⌉ = 2`), concatenating to the input. -/
theorem scanAll_batching_witness :
    (handleQueueSearchDuplicates true 2 [4, 5, 6]).2.length = 3 / 2 + 1 ∧
    (handleQueueSearchDuplicates true 2 [4, 5, 6]).2.flatten = [4, 5, 6] := by
  have h := scanAll_batching 2 (by decide) [4, 5, 6]
  exact ⟨h.1, h.2.1⟩

/-! ### Claim C3: idempotence of scan-one -/

theorem mergeUpd_fields (req : MergeRequest) (a : AssetRow) :
    (mergeUpd req a).id = a.id ∧ (mergeUpd req a).stackId = a.stackId ∧
    (mergeUpd req a).visibility = a.visibility ∧ (mergeUpd req a).embedding = a.embedding := by
  unfold mergeUpd
  split <;> exact ⟨rfl, rfl, rfl, rfl⟩

theorem getJob_applyMerge (st : List AssetRow) (req : MergeRequest) (x : Nat) :
    getForSearchDuplicatesJob (applyMerge st req) x =
      (getForSearchDuplicatesJob st x).map (mergeUpd req) :=
  getJob_map_pres st (mergeUpd req) (fun a => (mergeUpd_fields req a).1) x

theorem applyMerge_eq_self {st : List AssetRow} {req : MergeRequest}
    (h : ∀ a ∈ st, (a.id ∈ req.assetIds ∨ a.duplicateId ∈ req.sourceIds.map some) →
      a.duplicateId = some req.targetId) : applyMerge st req = st := by
  unfold applyMerge
  apply map_eq_self_of_fix
  intro a ha
  unfold mergeUpd
  by_cases hc : a.id ∈ req.assetIds ∨ a.duplicateId ∈ req.sourceIds.map some
  · rw [if_pos hc]
    exact row_set_dup_eq (h a ha hc)
  · rw [if_neg hc]

theorem scannedAsset_mem_assetIds (freshId : Nat) (aid : Nat) (adup : Option Nat)
    (cands : List AssetDuplicateResult) :
    aid ∈ (updateDuplicates freshId aid adup cands).assetIds := by
  rw [updateDuplicates_assetIds]
  exact List.mem_append.mpr (Or.inr (List.mem_singleton.mpr rfl))

theorem mem_searchResults {st : List AssetRow} {matchIds : List Nat}
    {c2 : AssetDuplicateResult} :
    c2 ∈ searchResults st matchIds ↔ ∃ c ∈ matchIds, c2 = ⟨c, dupOf st c⟩ := by
  unfold searchResults
  constructor
  · intro h
    obtain ⟨c, hc, hcc⟩ := List.mem_map.mp h
    exact ⟨c, hc, hcc.symm⟩
  · rintro ⟨c, hc, rfl⟩
    exact List.mem_map.mpr ⟨c, hc, rfl⟩

/-- After the first merge, every candidate asset id that exists in the store
carries the target group id. -/
theorem run1_candidate_dup (st : List AssetRow) (matchIds : List Nat) (freshId : Nat)
    (asset : AssetRow) (c : Nat) (hc : c ∈ matchIds) :
    dupOf (applyMerge st (updateDuplicates freshId asset.id asset.duplicateId
        (searchResults st matchIds))) c =
      some (updateDuplicates freshId asset.id asset.duplicateId
        (searchResults st matchIds)).targetId ∨
    getForSearchDuplicatesJob st c = none := by
  set req := updateDuplicates freshId asset.id asset.duplicateId (searchResults st matchIds)
    with hreq
  cases hb : getForSearchDuplicatesJob st c with
  | none => exact Or.inr rfl
  | some b =>
    left
    have hbid : b.id = c := getJob_eq_some_id hb
    rw [dupOf, getJob_applyMerge, hb]
    show (mergeUpd req b).duplicateId = some req.targetId
    by_cases hbt : b.duplicateId = some req.targetId
    · unfold mergeUpd
      split
      · rfl
      · exact hbt
    · have hcand : (⟨c, b.duplicateId⟩ : AssetDuplicateResult) ∈ searchResults st matchIds := by
        unfold searchResults
        apply List.mem_map.mpr
        refine ⟨c, hc, ?_⟩
        rw [dupOf, hb]
        rfl
      have hmem : c ∈ req.assetIds := by
        rw [hreq, updateDuplicates_assetIds]
        apply List.mem_append.mpr
        left
        apply List.mem_map.mpr
        refine ⟨⟨c, b.duplicateId⟩, ?_, rfl⟩
        apply List.mem_filter.mpr
        refine ⟨hcand, ?_⟩
        simpa using hbt
      unfold mergeUpd
      rw [if_pos (Or.inl (by rw [hbid]; exact hmem))]

/-- Re-running the merge branch on the post-merge store is a no-op: the second
merge request only touches rows that already carry the target group id. -/
theorem scanOne_merge_stable (st : List AssetRow) (matchIds : List Nat)
    (freshId freshId2 : Nat) :
    ∀ asset : AssetRow,
    applyMerge
      (applyMerge st (updateDuplicates freshId asset.id asset.duplicateId
        (searchResults st matchIds)))
      (updateDuplicates freshId2 asset.id
        (some (updateDuplicates freshId asset.id asset.duplicateId
          (searchResults st matchIds)).targetId)
        (searchResults
          (applyMerge st (updateDuplicates freshId asset.id asset.duplicateId
            (searchResults st matchIds))) matchIds)) =
      applyMerge st (updateDuplicates freshId asset.id asset.duplicateId
        (searchResults st matchIds)) := by
  intro asset
  set req := updateDuplicates freshId asset.id asset.duplicateId (searchResults st matchIds)
    with hreq
  set db1 := applyMerge st req with hdb1
  set req2 := updateDuplicates freshId2 asset.id (some req.targetId)
    (searchResults db1 matchIds) with hreq2
  have ht2 : req2.targetId = req.targetId := by
    rw [hreq2, updateDuplicates_targetId]
    rfl
  apply applyMerge_eq_self
  intro a ha hcond
  rw [ht2]
  obtain ⟨b, hbst, hab⟩ := List.mem_map.mp ha
  have hfieldsb := mergeUpd_fields req b
  rcases hcond with hid | hsrc
  · rw [hreq2, updateDuplicates_assetIds] at hid
    rcases List.mem_append.mp hid with hid | hid
    · -- a candidate whose post-merge group differs from the target: impossible
      -- for rows present in the store
      obtain ⟨c2, hc2f, hc2a⟩ := List.mem_map.mp hid
      have hc2 := List.mem_filter.mp hc2f
      obtain ⟨c, hcm, hcc⟩ := mem_searchResults.mp hc2.1
      have hcdup : c2.duplicateId ≠ some req.targetId := by
        have h3 := hc2.2
        rw [ht2] at h3
        simpa using h3
      rcases run1_candidate_dup st matchIds freshId asset c hcm with hgood | hnone
      · rw [← hreq] at hgood
        have h4 : c2.duplicateId = some req.targetId := by
          rw [hcc]
          exact hgood
        exact absurd h4 hcdup
      · -- the candidate row does not exist in the store, yet `a` has its id
        exfalso
        have hforall := List.find?_eq_none.mp hnone
        apply hforall b hbst
        have hbidc : b.id = c := by
          have h1 : a.id = c2.assetId := hc2a.symm
          have h2 : c2.assetId = c := by
            rw [hcc]
          rw [← hab, hfieldsb.1] at h1
          rw [h1, h2]
        simp [hbidc]
    · -- the scanned asset itself: its row was reassigned to the target by run 1
      have haid : a.id = asset.id := List.mem_singleton.mp hid
      have hbid : b.id = asset.id := by
        rw [← hab] at haid
        rw [hfieldsb.1] at haid
        exact haid
      have hbmem : b.id ∈ req.assetIds := by
        rw [hbid, hreq]
        exact scannedAsset_mem_assetIds freshId asset.id asset.duplicateId _
      rw [← hab]
      unfold mergeUpd
      rw [if_pos (Or.inl hbmem)]
  · obtain ⟨g, hg, hag⟩ := List.mem_map.mp hsrc
    rw [hreq2, updateDuplicates_sourceIds] at hg
    simp only [Option.isSome_some, if_true] at hg
    have hgmem : g ∈ (searchResults db1 matchIds).filterMap (fun d => d.duplicateId) :=
      mem_setDedup.mp hg
    obtain ⟨c2, hc2m, hc2d⟩ := List.mem_filterMap.mp hgmem
    obtain ⟨c, hcm, hcc⟩ := List.mem_map.mp hc2m
    have hdup1 : dupOf db1 c = some g := by
      rw [← hcc] at hc2d
      exact hc2d
    rcases run1_candidate_dup st matchIds freshId asset c hcm with hgood | hnone
    · rw [← hreq, ← hdb1] at hgood
      rw [hdup1] at hgood
      rw [← hag, Option.some_inj.mp hgood]
    · exfalso
      have : dupOf db1 c = none := by
        rw [dupOf, hdb1, getJob_applyMerge, hnone]
        rfl
      rw [hdup1] at this
      exact Option.noConfusion this

/-- C3: scan-one is idempotent. Running the handler twice in succession with
the same similarity matches (candidate data unchanged) leaves the store of the
first run unchanged — the same final group assignment for every asset — and
returns the same status, whatever ids the second run's generator would
mint. -/
theorem scanOne_idempotent (enabled : Bool) (matchIds : List Nat) (freshId freshId2 : Nat)
    (st : List AssetRow) (id : Nat) :
    (handleSearchDuplicates enabled matchIds freshId2
        (handleSearchDuplicates enabled matchIds freshId st id).db id).db =
      (handleSearchDuplicates enabled matchIds freshId st id).db ∧
    (handleSearchDuplicates enabled matchIds freshId2
        (handleSearchDuplicates enabled matchIds freshId st id).db id).status =
      (handleSearchDuplicates enabled matchIds freshId st id).status := by
  cases enabled with
  | false => simp [handleSearchDuplicates]
  | true =>
    cases hfound : getForSearchDuplicatesJob st id with
    | none =>
      have h1 : handleSearchDuplicates true matchIds freshId st id =
          ⟨.failed, st, [], [], []⟩ := by
        simp [handleSearchDuplicates, hfound]
      have h2 : handleSearchDuplicates true matchIds freshId2 st id =
          ⟨.failed, st, [], [], []⟩ := by
        simp [handleSearchDuplicates, hfound]
      simp only [h1]
      simp only [h2]
      exact ⟨trivial, trivial⟩
    | some asset =>
      by_cases hstack : asset.stackId.isSome
      · have h1 : handleSearchDuplicates true matchIds freshId st id =
            ⟨.skipped, st, [], [], []⟩ := by
          simp [handleSearchDuplicates, hfound, hstack]
        have h2 : handleSearchDuplicates true matchIds freshId2 st id =
            ⟨.skipped, st, [], [], []⟩ := by
          simp [handleSearchDuplicates, hfound, hstack]
        simp only [h1]
        simp only [h2]
        exact ⟨trivial, trivial⟩
      · by_cases hh : asset.visibility = AssetVisibility.hidden
        · have h1 : handleSearchDuplicates true matchIds freshId st id =
              ⟨.skipped, st, [], [], []⟩ := by
            simp [handleSearchDuplicates, hfound, hstack, hh]
          have h2 : handleSearchDuplicates true matchIds freshId2 st id =
              ⟨.skipped, st, [], [], []⟩ := by
            simp [handleSearchDuplicates, hfound, hstack, hh]
          simp only [h1]
          simp only [h2]
          exact ⟨trivial, trivial⟩
        · by_cases hl : asset.visibility = AssetVisibility.locked
          · have h1 : handleSearchDuplicates true matchIds freshId st id =
                ⟨.skipped, st, [], [], []⟩ := by
              simp [handleSearchDuplicates, hfound, hstack, hh, hl]
            have h2 : handleSearchDuplicates true matchIds freshId2 st id =
                ⟨.skipped, st, [], [], []⟩ := by
              simp [handleSearchDuplicates, hfound, hstack, hh, hl]
            simp only [h1]
            simp only [h2]
            exact ⟨trivial, trivial⟩
          · by_cases hemb : asset.embedding = none
            · have h1 : handleSearchDuplicates true matchIds freshId st id =
                  ⟨.failed, st, [], [], []⟩ := by
                simp [handleSearchDuplicates, hfound, hstack, hh, hl, hemb]
              have h2 : handleSearchDuplicates true matchIds freshId2 st id =
                  ⟨.failed, st, [], [], []⟩ := by
                simp [handleSearchDuplicates, hfound, hstack, hh, hl, hemb]
              simp only [h1]
              simp only [h2]
              exact ⟨trivial, trivial⟩
            · have hstack2 : asset.stackId = none := Option.not_isSome_iff_eq_none.mp hstack
              cases matchIds with
              | nil =>
                cases hdup : asset.duplicateId with
                | none =>
                  have h1 : handleSearchDuplicates true [] freshId st id =
                      ⟨.success, st, [], [], [asset.id]⟩ := by
                    simp [handleSearchDuplicates, hfound, hstack, hh, hl, hemb, hdup,
                      searchResults]
                  have h2 : handleSearchDuplicates true [] freshId2 st id =
                      ⟨.success, st, [], [], [asset.id]⟩ := by
                    simp [handleSearchDuplicates, hfound, hstack, hh, hl, hemb, hdup,
                      searchResults]
                  simp only [h1]
                  simp only [h2]
                  exact ⟨trivial, trivial⟩
                | some G =>
                  have h1 : handleSearchDuplicates true [] freshId st id =
                      ⟨.success, updateAssetDuplicateId st asset.id none, [],
                        [asset.id], [asset.id]⟩ := by
                    simp [handleSearchDuplicates, hfound, hstack, hh, hl, hemb, hdup,
                      searchResults]
                  have hfpres : ∀ a : AssetRow,
                      ((fun a : AssetRow =>
                        if a.id = asset.id then { a with duplicateId := none } else a) a).id =
                        a.id := by
                    intro a
                    by_cases hx : a.id = asset.id <;> simp [hx]
                  have hfound2 : getForSearchDuplicatesJob
                      (updateAssetDuplicateId st asset.id none) id =
                      some { asset with duplicateId := none } := by
                    rw [updateAssetDuplicateId, getJob_map_pres st _ hfpres, hfound]
                    simp
                  have h2 : handleSearchDuplicates true [] freshId2
                      (updateAssetDuplicateId st asset.id none) id =
                      ⟨.success, updateAssetDuplicateId st asset.id none, [], [],
                        [asset.id]⟩ := by
                    simp [handleSearchDuplicates, hfound2, hstack2, hh, hl, hemb,
                      searchResults]
                  simp only [h1]
                  simp only [h2]
                  exact ⟨trivial, trivial⟩
              | cons m ms =>
                have hne : (m :: ms : List Nat) ≠ [] := by simp
                have h1 := @scanOne_merge_branch (m :: ms) freshId st id asset
                  hfound hstack2 hh hl hemb hne
                simp only [h1]
                set req := updateDuplicates freshId asset.id asset.duplicateId
                  (searchResults st (m :: ms)) with hreqd
                have hfound2 : getForSearchDuplicatesJob (applyMerge st req) id =
                    some { asset with duplicateId := some req.targetId } := by
                  rw [getJob_applyMerge, hfound]
                  have hmem : asset.id ∈ req.assetIds := by
                    rw [hreqd]
                    exact scannedAsset_mem_assetIds _ _ _ _
                  show some (mergeUpd req asset) = _
                  unfold mergeUpd
                  rw [if_pos (Or.inl hmem)]
                have h2 := @scanOne_merge_branch (m :: ms) freshId2 (applyMerge st req) id
                  { asset with duplicateId := some req.targetId } hfound2 hstack2 hh hl
                  hemb hne
                simp only [h2]
                exact ⟨scanOne_merge_stable st (m :: ms) freshId freshId2 asset, trivial⟩

end DuplicateService
